import Mathlib

/-!
# Verification of the Food-Calorie-App audio evaluation pipeline

Shallow embedding of `src/unnamed/part_000` (`EvaluateVoiceWithCharts.js`,
the FastAPI variant): the annotation loader, the inference client's error
handling, the metrics engine (`computeMetrics`, `perFoodTable`), the
orchestrator loop of `main`, and the prediction-CSV serializer.

Modelling conventions: JS numbers are `ℚ` (every division the claims
mention is exact there); label sets are `List String`; JS out-of-range
array indexing (`undefined`) is `Option`; JS string primitives
(`split(',')`, `trim()`, `toLowerCase()`, `replace(/"/g,'""')`) are
modelled as executable functions on `List Char`.
-/

namespace FoodApp

/- ### JS string primitives -/

/-- JS `String.prototype.trim` on the character list of a string: strip
whitespace from both ends. -/
def jsTrimChars (l : List Char) : List Char :=
  ((l.dropWhile Char.isWhitespace).reverse.dropWhile Char.isWhitespace).reverse

/-- JS `s.trim()`. -/
def jsTrim (s : String) : String := String.mk (jsTrimChars s.data)

/-- JS `s.toLowerCase()` (character-wise lowering). -/
def jsToLower (s : String) : String := String.mk (s.data.map Char.toLower)

/-- Accumulator loop behind `splitComma`: `cur` holds the characters of
the current token in reverse; a comma closes the token. -/
def splitCommaAux (cur : List Char) : List Char → List (List Char)
  | [] => [cur.reverse]
  | c :: rest =>
      if c = ',' then cur.reverse :: splitCommaAux [] rest
      else splitCommaAux (c :: cur) rest

/-- JS `String.prototype.split(',')` on a character list: cut at every
comma; `N` commas yield `N+1` tokens (empty tokens included), and the
empty input yields one empty token. -/
def splitComma (l : List Char) : List (List Char) := splitCommaAux [] l

/-- JS `s.split(',')`. -/
def jsSplitComma (s : String) : List String := (splitComma s.data).map String.mk

/-- JS `Array.prototype.join(',')`. -/
def joinComma : List String → String
  | [] => ""
  | [x] => x
  | x :: xs => x ++ "," ++ joinComma xs

/- ### Metrics engine: `computeMetrics` (source lines 91–112) -/

/-- JS `x || 1` on a non-negative number: substitute `1` when the value
is `0` — the zero-division policy of the metrics engine. -/
def orOne (q : ℚ) : ℚ := if q = 0 then 1 else q

/-- One row of the binary multi-label matrix:
`vocab.map(f => arr.includes(f) ? 1 : 0)` (source lines 92–93). -/
def indicatorRow (arr : List String) (vocab : List String) : List Nat :=
  vocab.map (fun f => if arr.contains f then 1 else 0)

/-- `yTrue.map(arr => vocab.map(...))`: the whole binary matrix. -/
def matrixOf (y : List (List String)) (vocab : List String) : List (List Nat) :=
  y.map (fun arr => indicatorRow arr vocab)

/-- `yP[i]===1 && yT[i]===1`, with JS out-of-range indexing giving
`undefined` (modelled as `none`), which is `===`-unequal to `1` and `0`. -/
def isTP (t p : Option Nat) : Bool := p == some 1 && t == some 1

/-- `yP[i]===1 && yT[i]===0`. -/
def isFP (t p : Option Nat) : Bool := p == some 1 && t == some 0

/-- `yP[i]===0 && yT[i]===1`. -/
def isFN (t p : Option Nat) : Bool := p == some 0 && t == some 1

/-- `yP[i]===0 && yT[i]===0`. -/
def isTN (t p : Option Nat) : Bool := p == some 0 && t == some 0

/-- The accumulation loop `for (let i=0; i<yT.length; i++) if (cond) X++`
of `computeMetrics` (source lines 99–105): count the indices `i` below
`yT.length` at which the condition holds of `yT[i]` and `yP[i]`. -/
def countIdx (cond : Option Nat → Option Nat → Bool) (yT yP : List Nat) : Nat :=
  (List.range yT.length).countP (fun i => cond (yT.get? i) (yP.get? i))

/-- The `TP` accumulated by `computeMetrics` over the flattened matrices. -/
def TPof (yTrue yPred : List (List String)) (vocab : List String) : Nat :=
  countIdx isTP (matrixOf yTrue vocab).flatten (matrixOf yPred vocab).flatten

/-- The `FP` accumulated by `computeMetrics`. -/
def FPof (yTrue yPred : List (List String)) (vocab : List String) : Nat :=
  countIdx isFP (matrixOf yTrue vocab).flatten (matrixOf yPred vocab).flatten

/-- The `FN` accumulated by `computeMetrics`. -/
def FNof (yTrue yPred : List (List String)) (vocab : List String) : Nat :=
  countIdx isFN (matrixOf yTrue vocab).flatten (matrixOf yPred vocab).flatten

/-- The `TN` accumulated by `computeMetrics`. -/
def TNof (yTrue yPred : List (List String)) (vocab : List String) : Nat :=
  countIdx isTN (matrixOf yTrue vocab).flatten (matrixOf yPred vocab).flatten

/-- Result record of `computeMetrics` (source line 111). -/
structure MetricsResult where
  precision : ℚ
  «recall» : ℚ
  f1 : ℚ
  accuracy : ℚ
  TP : Nat
  FP : Nat
  FN : Nat
  TN : Nat
  trueMatrix : List (List Nat)
  predMatrix : List (List Nat)
  deriving DecidableEq

/-- `computeMetrics(yTrue, yPred, vocab)` (source lines 91–112): build the
binary matrices over the vocabulary, flatten them, accumulate the four
confusion counts, and compute the micro-averaged metrics with the `|| 1`
zero-denominator substitution. -/
def computeMetrics (yTrue yPred : List (List String)) (vocab : List String) :
    MetricsResult :=
  let TP := TPof yTrue yPred vocab
  let FP := FPof yTrue yPred vocab
  let FN := FNof yTrue yPred vocab
  let TN := TNof yTrue yPred vocab
  let precision : ℚ := (TP : ℚ) / orOne ((TP : ℚ) + (FP : ℚ))
  let recallV : ℚ := (TP : ℚ) / orOne ((TP : ℚ) + (FN : ℚ))
  let f1 : ℚ := 2 * precision * recallV / orOne (precision + recallV)
  let accuracy : ℚ :=
    ((TP : ℚ) + (TN : ℚ)) / orOne ((TP : ℚ) + (TN : ℚ) + (FP : ℚ) + (FN : ℚ))
  { precision := precision, «recall» := recallV, f1 := f1, accuracy := accuracy,
    TP := TP, FP := FP, FN := FN, TN := TN,
    trueMatrix := matrixOf yTrue vocab, predMatrix := matrixOf yPred vocab }

/- ### Per-food table: `perFoodTable` (source lines 115–136) -/

/-- `m[j][i]` with JS `undefined` for out-of-range access. -/
def cell (m : List (List Nat)) (j i : Nat) : Option Nat :=
  (m.get? j).bind (fun r => r.get? i)

/-- The inner loop `for (let j=0; j<trueMatrix.length; j++) if (cond) X++`
of `perFoodTable` (source lines 119–123), for column `i`. -/
def colCount (cond : Option Nat → Option Nat → Bool)
    (trueMatrix predMatrix : List (List Nat)) (i : Nat) : Nat :=
  (List.range trueMatrix.length).countP
    (fun j => cond (cell trueMatrix j i) (cell predMatrix j i))

/-- One row pushed by `perFoodTable` (source lines 127–133). The source
formats `precision`, `recall` and `f1` with `toFixed(3)` for display; the
fields here hold the exact computed values of source lines 124–126. -/
structure PerFoodEntry where
  food : String
  precision : ℚ
  «recall» : ℚ
  f1 : ℚ
  TP : Nat
  FP : Nat
  FN : Nat
  deriving DecidableEq

/-- `perFoodTable(trueMatrix, predMatrix, vocab)` (source lines 115–136):
for each vocabulary index, count the column's confusion cells over all
samples and compute the three ratios with the `|| 1` substitution. -/
def perFoodTable (trueMatrix predMatrix : List (List Nat))
    (vocab : List String) : List PerFoodEntry :=
  (List.range vocab.length).map (fun i =>
    let TP := colCount isTP trueMatrix predMatrix i
    let FP := colCount isFP trueMatrix predMatrix i
    let FN := colCount isFN trueMatrix predMatrix i
    let precision : ℚ := (TP : ℚ) / orOne ((TP : ℚ) + (FP : ℚ))
    let recallV : ℚ := (TP : ℚ) / orOne ((TP : ℚ) + (FN : ℚ))
    let f1 : ℚ := 2 * precision * recallV / orOne (precision + recallV)
    { food := vocab.getD i "", precision := precision, «recall» := recallV,
      f1 := f1, TP := TP, FP := FP, FN := FN })

/- ### Annotation loader: `loadAnnotations` (source lines 41–53) -/

/-- One data row delivered by the `csv-parser` stream: the `audio_id`
column and the raw `ground_truth` cell. -/
structure CsvRow where
  audio_id : String
  ground_truth : String
  deriving DecidableEq

/-- One parsed annotation: `{ audio_id, ground_truth: items }`. -/
structure AnnotationRecord where
  audio_id : String
  ground_truth : List String
  deriving DecidableEq

/-- `loadAnnotations` row handling (source lines 46–49):
`row.ground_truth.split(',').map(i => i.trim().toLowerCase())`, one
record pushed per row in stream order. -/
def loadAnnotations (rows : List CsvRow) : List AnnotationRecord :=
  rows.map (fun row =>
    { audio_id := row.audio_id,
      ground_truth := (jsSplitComma row.ground_truth).map
        (fun i => jsToLower (jsTrim i)) })

/- ### Inference client: `transcribeAndExtract` (source lines 56–88) -/

/-- One element of the remote `items` array; `name` may be absent
(`undefined`) and JS treats the empty string as falsy too. -/
structure RemoteItem where
  name : Option String
  deriving DecidableEq

/-- The remote contract `{transcript, items}`; `items` itself may be
absent, which `(items || [])` maps to the empty list. -/
structure RemoteResponse where
  transcript : String
  items : Option (List RemoteItem)
  deriving DecidableEq

/-- Return value `{ transcript, items }` of the inference client. -/
structure PredictionResult where
  transcript : String
  items : List String
  deriving DecidableEq

/-- `item.name ? item.name.toLowerCase().trim() : ''` (source line 73). -/
def cleanItem (item : RemoteItem) : String :=
  match item.name with
  | some n => if n = "" then "" else jsTrim (jsToLower n)
  | none => ""

/-- `transcribeAndExtract` (source lines 56–88), with the outcome of the
`axios.post` call made explicit: `Except.error` covers a timeout and any
transport/HTTP failure, which the `catch` block (lines 81–87) turns into
`{ transcript: '', items: [] }`; on success the items are normalized and
blanks are dropped (lines 72–74). -/
def transcribeAndExtract (outcome : Except String RemoteResponse) :
    PredictionResult :=
  match outcome with
  | Except.error _ => { transcript := "", items := [] }
  | Except.ok response =>
      { transcript := response.transcript,
        items := ((response.items.getD []).map cleanItem).filter
          (fun name => name.length > 0) }

/- ### Orchestrator loop of `main` (source lines 184–207) -/

/-- One row of the predictions CSV accumulated by `main`
(source lines 201–206): the label lists are already comma-joined. -/
structure PredRow where
  audio_id : String
  ground_truth : String
  predicted : String
  transcript : String
  deriving DecidableEq

/-- `path.join(AUDIO_FOLDER, audio_id + '.wav')` (source line 188). -/
def audioPathOf (audioFolder : String) (r : AnnotationRecord) : String :=
  audioFolder ++ "/" ++ r.audio_id ++ ".wav"

/-- The `for` loop of `main` (source lines 184–207): rows whose audio file
does not exist are skipped (`continue`, lines 189–192); for the others the
inference result is pushed onto `yTrue`, `yPred` and `predictions` in row
order. `fileExists` models `fs.existsSync` and `infer` the awaited result
of `transcribeAndExtract` for a given path. -/
def processAnnotations (fileExists : String → Bool)
    (infer : String → PredictionResult) (audioFolder : String) :
    List AnnotationRecord →
      List (List String) × List (List String) × List PredRow
  | [] => ([], [], [])
  | row :: rest =>
      let audioPath := audioPathOf audioFolder row
      if fileExists audioPath then
        let result := infer audioPath
        let out := processAnnotations fileExists infer audioFolder rest
        (row.ground_truth :: out.1, result.items :: out.2.1,
          { audio_id := row.audio_id,
            ground_truth := joinComma row.ground_truth,
            predicted := joinComma result.items,
            transcript := result.transcript } :: out.2.2)
      else
        processAnnotations fileExists infer audioFolder rest

/- ### Prediction CSV serialization (source lines 209–214) -/

/-- JS `transcript.replace(/"/g,'""')`: double every quote character. -/
def escapeQuotes : List Char → List Char
  | [] => []
  | c :: rest =>
      if c = '"' then '"' :: '"' :: escapeQuotes rest
      else c :: escapeQuotes rest

/-- The template literal of source line 212:
the `audio_id` bare, the three other fields wrapped in quotes, and only
the transcript quote-escaped. -/
def serializeRow (p : PredRow) : String :=
  p.audio_id ++ ",\"" ++ p.ground_truth ++ "\",\"" ++ p.predicted
    ++ "\",\"" ++ String.mk (escapeQuotes p.transcript.data) ++ "\""

/-- Modelled from the spec: the quoted-CSV reading convention of the
output table (the `csv-parser` dependency that would read the file back
is not part of this repository). One field-splitting pass over a record:
`inQ` says whether the scan is inside a quoted field, `cur` holds the
current field in reverse; a comma outside quotes closes a field, a quote
toggles quoting, and a doubled quote inside quotes is a literal quote. -/
def csvAux : Bool → List Char → List Char → List (List Char)
  | false, cur, [] => [cur.reverse]
  | false, cur, c :: rest =>
      if c = ',' then cur.reverse :: csvAux false [] rest
      else if c = '"' then csvAux true cur rest
      else csvAux false (c :: cur) rest
  | true, cur, [] => [cur.reverse]
  | true, cur, c :: rest =>
      if c = '"' then
        match h : rest with
        | '"' :: rest2 => csvAux true ('"' :: cur) rest2
        | _ => csvAux false cur rest
      else csvAux true (c :: cur) rest
termination_by _ _ l => l.length
decreasing_by all_goals (first
  | (subst h; simp only [List.length_cons]; omega)
  | (simp only [List.length_cons]; omega))

/-- Modelled from the spec: split one serialized record into its comma
separated, optionally quoted fields. -/
def parseFields (l : List Char) : List (List Char) := csvAux false [] l

/-- Modelled from the spec: re-parsing one row of the prediction table —
split it into fields, expect the four columns
`audio_id,ground_truth,predicted,transcript`, and split the two label
cells on commas the way the loader does. -/
def reparseRow (line : String) :
    Option (String × List String × List String × String) :=
  match parseFields line.data with
  | [f0, f1, f2, f3] =>
      some (String.mk f0, (splitComma f1).map String.mk,
        (splitComma f2).map String.mk, String.mk f3)
  | _ => none

/- ### Helper lemmas: projections of `computeMetrics` -/

theorem computeMetrics_TP (yTrue yPred : List (List String)) (vocab : List String) :
    (computeMetrics yTrue yPred vocab).TP = TPof yTrue yPred vocab := rfl

theorem computeMetrics_FP (yTrue yPred : List (List String)) (vocab : List String) :
    (computeMetrics yTrue yPred vocab).FP = FPof yTrue yPred vocab := rfl

theorem computeMetrics_FN (yTrue yPred : List (List String)) (vocab : List String) :
    (computeMetrics yTrue yPred vocab).FN = FNof yTrue yPred vocab := rfl

theorem computeMetrics_TN (yTrue yPred : List (List String)) (vocab : List String) :
    (computeMetrics yTrue yPred vocab).TN = TNof yTrue yPred vocab := rfl

theorem computeMetrics_precision (yTrue yPred : List (List String)) (vocab : List String) :
    (computeMetrics yTrue yPred vocab).precision
      = (TPof yTrue yPred vocab : ℚ)
        / orOne ((TPof yTrue yPred vocab : ℚ) + (FPof yTrue yPred vocab : ℚ)) := rfl

theorem computeMetrics_recall (yTrue yPred : List (List String)) (vocab : List String) :
    (computeMetrics yTrue yPred vocab).«recall»
      = (TPof yTrue yPred vocab : ℚ)
        / orOne ((TPof yTrue yPred vocab : ℚ) + (FNof yTrue yPred vocab : ℚ)) := rfl

theorem computeMetrics_f1 (yTrue yPred : List (List String)) (vocab : List String) :
    (computeMetrics yTrue yPred vocab).f1
      = 2 * (computeMetrics yTrue yPred vocab).precision
          * (computeMetrics yTrue yPred vocab).«recall»
        / orOne ((computeMetrics yTrue yPred vocab).precision
          + (computeMetrics yTrue yPred vocab).«recall») := rfl

theorem computeMetrics_accuracy (yTrue yPred : List (List String)) (vocab : List String) :
    (computeMetrics yTrue yPred vocab).accuracy
      = ((TPof yTrue yPred vocab : ℚ) + (TNof yTrue yPred vocab : ℚ))
        / orOne ((TPof yTrue yPred vocab : ℚ) + (TNof yTrue yPred vocab : ℚ)
          + (FPof yTrue yPred vocab : ℚ) + (FNof yTrue yPred vocab : ℚ)) := rfl

theorem computeMetrics_trueMatrix (yTrue yPred : List (List String)) (vocab : List String) :
    (computeMetrics yTrue yPred vocab).trueMatrix = matrixOf yTrue vocab := rfl

theorem computeMetrics_predMatrix (yTrue yPred : List (List String)) (vocab : List String) :
    (computeMetrics yTrue yPred vocab).predMatrix = matrixOf yPred vocab := rfl

/- ### Claim theorems -/

/-- C2: for vocabulary `["apple","banana"]`, ground truth
`[["apple"],["banana"]]` and predictions `[["apple"],["apple"]]`, the
metrics engine returns TP=1, FP=1, FN=1, TN=1 and
precision = recall = f1 = accuracy = 1/2. -/
theorem computeMetrics_concrete_scenario :
    (computeMetrics [["apple"], ["banana"]] [["apple"], ["apple"]]
        ["apple", "banana"]).TP = 1 ∧
    (computeMetrics [["apple"], ["banana"]] [["apple"], ["apple"]]
        ["apple", "banana"]).FP = 1 ∧
    (computeMetrics [["apple"], ["banana"]] [["apple"], ["apple"]]
        ["apple", "banana"]).FN = 1 ∧
    (computeMetrics [["apple"], ["banana"]] [["apple"], ["apple"]]
        ["apple", "banana"]).TN = 1 ∧
    (computeMetrics [["apple"], ["banana"]] [["apple"], ["apple"]]
        ["apple", "banana"]).precision = 1/2 ∧
    (computeMetrics [["apple"], ["banana"]] [["apple"], ["apple"]]
        ["apple", "banana"]).«recall» = 1/2 ∧
    (computeMetrics [["apple"], ["banana"]] [["apple"], ["apple"]]
        ["apple", "banana"]).f1 = 1/2 ∧
    (computeMetrics [["apple"], ["banana"]] [["apple"], ["apple"]]
        ["apple", "banana"]).accuracy = 1/2 := by
  have hTP : TPof [["apple"], ["banana"]] [["apple"], ["apple"]]
      ["apple", "banana"] = 1 := by decide
  have hFP : FPof [["apple"], ["banana"]] [["apple"], ["apple"]]
      ["apple", "banana"] = 1 := by decide
  have hFN : FNof [["apple"], ["banana"]] [["apple"], ["apple"]]
      ["apple", "banana"] = 1 := by decide
  have hTN : TNof [["apple"], ["banana"]] [["apple"], ["apple"]]
      ["apple", "banana"] = 1 := by decide
  refine ⟨hTP ▸ computeMetrics_TP .., hFP ▸ computeMetrics_FP ..,
    hFN ▸ computeMetrics_FN .., hTN ▸ computeMetrics_TN .., ?_, ?_, ?_, ?_⟩
  · rw [computeMetrics_precision, hTP, hFP]
    norm_num [orOne]
  · rw [computeMetrics_recall, hTP, hFN]
    norm_num [orOne]
  · rw [computeMetrics_f1, computeMetrics_precision, computeMetrics_recall,
      hTP, hFP, hFN]
    norm_num [orOne]
  · rw [computeMetrics_accuracy, hTP, hFP, hFN, hTN]
    norm_num [orOne]

/-- C5: on a timeout or any transport/HTTP error of the remote call
(an `Except.error` outcome of `axios.post`), the inference client does
not raise: it returns a record with empty transcript and empty label
set. -/
theorem transcribeAndExtract_error_returns_empty (e : String) :
    transcribeAndExtract (Except.error e)
      = { transcript := "", items := [] } := rfl

/-- C6: rows whose media file is missing are skipped entirely — the
prediction rows are exactly the rows whose file exists, in input order,
and the metrics engine receives exactly as many aligned (truth,
prediction) pairs; in particular three annotation rows with the second
one's file absent yield exactly the prediction rows for rows 1 and 3 and
two aligned pairs. -/
theorem processAnnotations_skips_missing_media
    (fileExists : String → Bool) (infer : String → PredictionResult)
    (audioFolder : String) (annotations : List AnnotationRecord) :
    (processAnnotations fileExists infer audioFolder annotations).1
      = (annotations.filter (fun r => fileExists (audioPathOf audioFolder r))).map
          (fun r => r.ground_truth) ∧
    (processAnnotations fileExists infer audioFolder annotations).2.1
      = (annotations.filter (fun r => fileExists (audioPathOf audioFolder r))).map
          (fun r => (infer (audioPathOf audioFolder r)).items) ∧
    (processAnnotations fileExists infer audioFolder annotations).2.2
      = (annotations.filter (fun r => fileExists (audioPathOf audioFolder r))).map
          (fun r =>
            { audio_id := r.audio_id,
              ground_truth := joinComma r.ground_truth,
              predicted := joinComma (infer (audioPathOf audioFolder r)).items,
              transcript := (infer (audioPathOf audioFolder r)).transcript }) ∧
    (processAnnotations fileExists infer audioFolder annotations).1.length
      = (processAnnotations fileExists infer audioFolder annotations).2.1.length ∧
    ((processAnnotations (fun p => p ≠ "aud/audio_02.wav")
        (fun _ => { transcript := "t", items := ["apple"] }) "aud"
        [AnnotationRecord.mk "audio_01" ["apple"],
         AnnotationRecord.mk "audio_02" ["banana"],
         AnnotationRecord.mk "audio_03" ["rice"]]).2.2
      = [PredRow.mk "audio_01" "apple" "apple" "t",
         PredRow.mk "audio_03" "rice" "apple" "t"] ∧
     (processAnnotations (fun p => p ≠ "aud/audio_02.wav")
        (fun _ => { transcript := "t", items := ["apple"] }) "aud"
        [AnnotationRecord.mk "audio_01" ["apple"],
         AnnotationRecord.mk "audio_02" ["banana"],
         AnnotationRecord.mk "audio_03" ["rice"]]).1.length = 2 ∧
     (processAnnotations (fun p => p ≠ "aud/audio_02.wav")
        (fun _ => { transcript := "t", items := ["apple"] }) "aud"
        [AnnotationRecord.mk "audio_01" ["apple"],
         AnnotationRecord.mk "audio_02" ["banana"],
         AnnotationRecord.mk "audio_03" ["rice"]]).2.1.length = 2) := by
  have key : ∀ l : List AnnotationRecord,
      (processAnnotations fileExists infer audioFolder l).1
        = (l.filter (fun r => fileExists (audioPathOf audioFolder r))).map
            (fun r => r.ground_truth) ∧
      (processAnnotations fileExists infer audioFolder l).2.1
        = (l.filter (fun r => fileExists (audioPathOf audioFolder r))).map
            (fun r => (infer (audioPathOf audioFolder r)).items) ∧
      (processAnnotations fileExists infer audioFolder l).2.2
        = (l.filter (fun r => fileExists (audioPathOf audioFolder r))).map
            (fun r =>
              { audio_id := r.audio_id,
                ground_truth := joinComma r.ground_truth,
                predicted := joinComma (infer (audioPathOf audioFolder r)).items,
                transcript := (infer (audioPathOf audioFolder r)).transcript }) := by
    intro l
    induction l with
    | nil => exact ⟨rfl, rfl, rfl⟩
    | cons row rest ih =>
        by_cases hrow : fileExists (audioPathOf audioFolder row)
        · simpa [processAnnotations, hrow] using ih
        · simpa [processAnnotations, hrow] using ih
  obtain ⟨h1, h2, h3⟩ := key annotations
  refine ⟨h1, h2, h3, ?_, ?_, ?_, ?_⟩
  · rw [h1, h2]
    simp
  · decide
  · decide
  · decide

/- ### Helper lemmas: the accumulation loop as a count over zipped cells -/

/-- The index-driven loop over two equal-length lists is a `countP` over
their zip. -/
theorem range_countP_get {α β : Type} (cond : Option α → Option β → Bool) :
    ∀ (yT : List α) (yP : List β), yT.length = yP.length →
    (List.range yT.length).countP (fun i => cond (yT.get? i) (yP.get? i))
      = (yT.zip yP).countP (fun c => cond (some c.1) (some c.2)) := by
  intro yT
  induction yT with
  | nil => intro yP _; simp
  | cons a t ih =>
      intro yP h
      cases yP with
      | nil => simp at h
      | cons b tP =>
          have hlen : t.length = tP.length := by simpa using h
          rw [List.length_cons, List.range_succ_eq_map, List.countP_cons,
            List.countP_map, List.zip_cons_cons, List.countP_cons]
          have hcomp :
              ((fun i => cond ((a :: t).get? i) ((b :: tP).get? i)) ∘ Nat.succ)
                = (fun i => cond (t.get? i) (tP.get? i)) := by
            funext i
            simp [Function.comp]
          rw [hcomp, ih tP hlen]
          simp

/-- Flattening then zipping equals zipping row-wise then flattening, when
the paired rows have equal lengths. -/
theorem zip_flatten_map {α : Type} (f g : α → List Nat)
    (hfg : ∀ a, (f a).length = (g a).length) :
    ∀ l : List α,
      ((l.map f).flatten).zip ((l.map g).flatten)
        = (l.map (fun a => (f a).zip (g a))).flatten := by
  intro l
  induction l with
  | nil => simp
  | cons a t ih =>
      simp only [List.map_cons, List.flatten_cons]
      rw [List.zip_append (by simp [hfg a]), ih]

/-- Length of a flattened binary matrix: number of samples times the
vocabulary size. -/
theorem length_flatten_matrixOf (y : List (List String)) (vocab : List String) :
    (matrixOf y vocab).flatten.length = y.length * vocab.length := by
  induction y with
  | nil => simp [matrixOf]
  | cons a t ih =>
      have hcons : matrixOf (a :: t) vocab
          = indicatorRow a vocab :: matrixOf t vocab := rfl
      rw [hcons, List.flatten_cons, List.length_append, ih]
      simp only [indicatorRow, List.length_map, List.length_cons]
      ring

/-- Each confusion-count loop, viewed per sample: a sum over the sample
list of per-sample cell counts. -/
theorem countIdx_pairs (cond : Option Nat → Option Nat → Bool)
    (l : List (List String × List String)) (vocab : List String) :
    countIdx cond (matrixOf (l.map Prod.fst) vocab).flatten
        (matrixOf (l.map Prod.snd) vocab).flatten
      = (l.map (fun s =>
          ((indicatorRow s.1 vocab).zip (indicatorRow s.2 vocab)).countP
            (fun c => cond (some c.1) (some c.2)))).sum := by
  unfold countIdx
  rw [range_countP_get cond _ _ (by
    rw [length_flatten_matrixOf, length_flatten_matrixOf]
    simp)]
  have hT : matrixOf (l.map Prod.fst) vocab
      = l.map (fun s => indicatorRow s.1 vocab) := by
    simp [matrixOf, List.map_map, Function.comp]
  have hP : matrixOf (l.map Prod.snd) vocab
      = l.map (fun s => indicatorRow s.2 vocab) := by
    simp [matrixOf, List.map_map, Function.comp]
  rw [hT, hP, zip_flatten_map _ _ (fun a => by simp [indicatorRow]),
    List.countP_flatten, List.map_map]
  rfl

/-- C3: permuting the sample sequence (ground truth and predictions
reordered identically, modelled as a permutation of the paired sample
list) leaves all four confusion counts and all four aggregate metrics of
the metrics engine unchanged. -/
theorem computeMetrics_perm_invariant
    (l l' : List (List String × List String)) (vocab : List String)
    (hperm : l.Perm l') :
    (computeMetrics (l.map Prod.fst) (l.map Prod.snd) vocab).TP
      = (computeMetrics (l'.map Prod.fst) (l'.map Prod.snd) vocab).TP ∧
    (computeMetrics (l.map Prod.fst) (l.map Prod.snd) vocab).FP
      = (computeMetrics (l'.map Prod.fst) (l'.map Prod.snd) vocab).FP ∧
    (computeMetrics (l.map Prod.fst) (l.map Prod.snd) vocab).FN
      = (computeMetrics (l'.map Prod.fst) (l'.map Prod.snd) vocab).FN ∧
    (computeMetrics (l.map Prod.fst) (l.map Prod.snd) vocab).TN
      = (computeMetrics (l'.map Prod.fst) (l'.map Prod.snd) vocab).TN ∧
    (computeMetrics (l.map Prod.fst) (l.map Prod.snd) vocab).precision
      = (computeMetrics (l'.map Prod.fst) (l'.map Prod.snd) vocab).precision ∧
    (computeMetrics (l.map Prod.fst) (l.map Prod.snd) vocab).«recall»
      = (computeMetrics (l'.map Prod.fst) (l'.map Prod.snd) vocab).«recall» ∧
    (computeMetrics (l.map Prod.fst) (l.map Prod.snd) vocab).f1
      = (computeMetrics (l'.map Prod.fst) (l'.map Prod.snd) vocab).f1 ∧
    (computeMetrics (l.map Prod.fst) (l.map Prod.snd) vocab).accuracy
      = (computeMetrics (l'.map Prod.fst) (l'.map Prod.snd) vocab).accuracy := by
  have hcount : ∀ cond : Option Nat → Option Nat → Bool,
      countIdx cond (matrixOf (l.map Prod.fst) vocab).flatten
          (matrixOf (l.map Prod.snd) vocab).flatten
        = countIdx cond (matrixOf (l'.map Prod.fst) vocab).flatten
            (matrixOf (l'.map Prod.snd) vocab).flatten := by
    intro cond
    rw [countIdx_pairs, countIdx_pairs]
    exact (hperm.map _).sum_eq
  have hTP : TPof (l.map Prod.fst) (l.map Prod.snd) vocab
      = TPof (l'.map Prod.fst) (l'.map Prod.snd) vocab := hcount isTP
  have hFP : FPof (l.map Prod.fst) (l.map Prod.snd) vocab
      = FPof (l'.map Prod.fst) (l'.map Prod.snd) vocab := hcount isFP
  have hFN : FNof (l.map Prod.fst) (l.map Prod.snd) vocab
      = FNof (l'.map Prod.fst) (l'.map Prod.snd) vocab := hcount isFN
  have hTN : TNof (l.map Prod.fst) (l.map Prod.snd) vocab
      = TNof (l'.map Prod.fst) (l'.map Prod.snd) vocab := hcount isTN
  refine ⟨?_, ?_, ?_, ?_, ?_, ?_, ?_, ?_⟩
  · rw [computeMetrics_TP, computeMetrics_TP, hTP]
  · rw [computeMetrics_FP, computeMetrics_FP, hFP]
  · rw [computeMetrics_FN, computeMetrics_FN, hFN]
  · rw [computeMetrics_TN, computeMetrics_TN, hTN]
  · rw [computeMetrics_precision, computeMetrics_precision, hTP, hFP]
  · rw [computeMetrics_recall, computeMetrics_recall, hTP, hFN]
  · rw [computeMetrics_f1, computeMetrics_f1, computeMetrics_precision,
      computeMetrics_precision, computeMetrics_recall, computeMetrics_recall,
      hTP, hFP, hFN]
  · rw [computeMetrics_accuracy, computeMetrics_accuracy, hTP, hFP, hFN, hTN]

/-- Witness for C3 at a concrete permutation of two samples. -/
theorem computeMetrics_perm_invariant_witness :
    (computeMetrics ([(["apple"], ["apple"]), (["banana"], [])].map Prod.fst)
        ([(["apple"], ["apple"]), (["banana"], [])].map Prod.snd)
        ["apple", "banana"]).precision
      = (computeMetrics
          ([(["banana"], []), (["apple"], ["apple"])].map Prod.fst)
          ([(["banana"], []), (["apple"], ["apple"])].map Prod.snd)
          ["apple", "banana"]).precision :=
  (computeMetrics_perm_invariant
    [(["apple"], ["apple"]), (["banana"], [])]
    [(["banana"], []), (["apple"], ["apple"])]
    ["apple", "banana"] (List.Perm.swap _ _ _)).2.2.2.2.1

/- ### Helper lemmas: bounds of the substituted ratios -/

/-- A ratio `a / orOne s` with `0 ≤ a ≤ s` lies in `[0, 1]`. -/
theorem ratio_orOne_bounds (a s : ℚ) (h0 : 0 ≤ a) (h1 : a ≤ s) :
    0 ≤ a / orOne s ∧ a / orOne s ≤ 1 := by
  by_cases hs : s = 0
  · subst hs
    have ha : a = 0 := le_antisymm h1 h0
    simp [orOne, ha]
  · have hval : orOne s = s := by simp [orOne, hs]
    have hpos : 0 < s := lt_of_le_of_ne (h0.trans h1) (Ne.symm hs)
    rw [hval]
    exact ⟨div_nonneg h0 hpos.le, (div_le_one hpos).mpr h1⟩

/-- The f1 combination of two values in `[0, 1]` lies in `[0, 1]`. -/
theorem f1_bounds (p r : ℚ) (hp0 : 0 ≤ p) (hp1 : p ≤ 1) (hr0 : 0 ≤ r)
    (hr1 : r ≤ 1) :
    0 ≤ 2 * p * r / orOne (p + r) ∧ 2 * p * r / orOne (p + r) ≤ 1 := by
  refine ratio_orOne_bounds _ _ (by positivity) ?_
  nlinarith [mul_nonneg hp0 (sub_nonneg.mpr hr1),
    mul_nonneg hr0 (sub_nonneg.mpr hp1)]

/-- C4: for any two equal-length sequences of label sets and any
vocabulary, the precision, recall, f1 and accuracy returned by the
metrics engine all lie in the closed interval `[0, 1]`. -/
theorem computeMetrics_bounds (yTrue yPred : List (List String))
    (vocab : List String) (hlen : yTrue.length = yPred.length) :
    (0 ≤ (computeMetrics yTrue yPred vocab).precision ∧
      (computeMetrics yTrue yPred vocab).precision ≤ 1) ∧
    (0 ≤ (computeMetrics yTrue yPred vocab).«recall» ∧
      (computeMetrics yTrue yPred vocab).«recall» ≤ 1) ∧
    (0 ≤ (computeMetrics yTrue yPred vocab).f1 ∧
      (computeMetrics yTrue yPred vocab).f1 ≤ 1) ∧
    (0 ≤ (computeMetrics yTrue yPred vocab).accuracy ∧
      (computeMetrics yTrue yPred vocab).accuracy ≤ 1) := by
  have hprec := ratio_orOne_bounds (TPof yTrue yPred vocab : ℚ)
    ((TPof yTrue yPred vocab : ℚ) + (FPof yTrue yPred vocab : ℚ))
    (by positivity) (by simp)
  have hrec := ratio_orOne_bounds (TPof yTrue yPred vocab : ℚ)
    ((TPof yTrue yPred vocab : ℚ) + (FNof yTrue yPred vocab : ℚ))
    (by positivity) (by simp)
  have hacc := ratio_orOne_bounds
    ((TPof yTrue yPred vocab : ℚ) + (TNof yTrue yPred vocab : ℚ))
    ((TPof yTrue yPred vocab : ℚ) + (TNof yTrue yPred vocab : ℚ)
      + (FPof yTrue yPred vocab : ℚ) + (FNof yTrue yPred vocab : ℚ))
    (by positivity) (by
      have h1 : (0 : ℚ) ≤ (FPof yTrue yPred vocab : ℚ) := by positivity
      have h2 : (0 : ℚ) ≤ (FNof yTrue yPred vocab : ℚ) := by positivity
      linarith)
  refine ⟨?_, ?_, ?_, ?_⟩
  · rw [computeMetrics_precision]
    exact hprec
  · rw [computeMetrics_recall]
    exact hrec
  · rw [computeMetrics_f1, computeMetrics_precision, computeMetrics_recall]
    exact f1_bounds _ _ hprec.1 hprec.2 hrec.1 hrec.2
  · rw [computeMetrics_accuracy]
    exact hacc

/-- Witness for C4 on the concrete scenario input. -/
theorem computeMetrics_bounds_witness :
    (0 ≤ (computeMetrics [["apple"], ["banana"]] [["apple"], ["apple"]]
        ["apple", "banana"]).precision ∧
      (computeMetrics [["apple"], ["banana"]] [["apple"], ["apple"]]
        ["apple", "banana"]).precision ≤ 1) ∧
    (0 ≤ (computeMetrics [["apple"], ["banana"]] [["apple"], ["apple"]]
        ["apple", "banana"]).«recall» ∧
      (computeMetrics [["apple"], ["banana"]] [["apple"], ["apple"]]
        ["apple", "banana"]).«recall» ≤ 1) ∧
    (0 ≤ (computeMetrics [["apple"], ["banana"]] [["apple"], ["apple"]]
        ["apple", "banana"]).f1 ∧
      (computeMetrics [["apple"], ["banana"]] [["apple"], ["apple"]]
        ["apple", "banana"]).f1 ≤ 1) ∧
    (0 ≤ (computeMetrics [["apple"], ["banana"]] [["apple"], ["apple"]]
        ["apple", "banana"]).accuracy ∧
      (computeMetrics [["apple"], ["banana"]] [["apple"], ["apple"]]
        ["apple", "banana"]).accuracy ≤ 1) :=
  computeMetrics_bounds [["apple"], ["banana"]] [["apple"], ["apple"]]
    ["apple", "banana"] rfl

/- ### Helper lemmas: the four cell conditions partition the matrix -/

/-- Four pairwise-exclusive, jointly exhaustive predicates count up to the
list length. -/
theorem countP_four_partition {α : Type} (p1 p2 p3 p4 : α → Bool) :
    ∀ l : List α,
      (∀ x ∈ l,
        (if p1 x then 1 else 0) + (if p2 x then 1 else 0)
          + (if p3 x then 1 else 0) + (if p4 x then 1 else 0) = 1) →
      l.countP p1 + l.countP p2 + l.countP p3 + l.countP p4 = l.length := by
  intro l
  induction l with
  | nil => intro _; simp
  | cons a t ih =>
      intro h
      have ha := h a (by simp)
      have ht := ih (fun x hx => h x (by simp [hx]))
      rw [List.countP_cons, List.countP_cons, List.countP_cons,
        List.countP_cons, List.length_cons]
      omega

/-- Every entry of the binary matrix is a 0/1 bit. -/
theorem mem_flatten_matrixOf_bit (y : List (List String))
    (vocab : List String) (x : Nat) (hx : x ∈ (matrixOf y vocab).flatten) :
    x = 0 ∨ x = 1 := by
  rw [List.mem_flatten] at hx
  obtain ⟨row, hrow, hxrow⟩ := hx
  rw [matrixOf, List.mem_map] at hrow
  obtain ⟨arr, _, harr⟩ := hrow
  subst harr
  rw [indicatorRow, List.mem_map] at hxrow
  obtain ⟨f, _, hf⟩ := hxrow
  by_cases hc : arr.contains f
  · right; rw [← hf, if_pos hc]
  · left; rw [← hf, if_neg hc]

/-- C10: for equal-length sample sequences, the four confusion counts
returned by the metrics engine partition the N×V binary matrix:
`TP + FP + FN + TN = N * V`. -/
theorem computeMetrics_counts_partition (yTrue yPred : List (List String))
    (vocab : List String) (hlen : yTrue.length = yPred.length) :
    (computeMetrics yTrue yPred vocab).TP
      + (computeMetrics yTrue yPred vocab).FP
      + (computeMetrics yTrue yPred vocab).FN
      + (computeMetrics yTrue yPred vocab).TN
      = yTrue.length * vocab.length := by
  rw [computeMetrics_TP, computeMetrics_FP, computeMetrics_FN,
    computeMetrics_TN]
  have hflat : (matrixOf yTrue vocab).flatten.length
      = (matrixOf yPred vocab).flatten.length := by
    rw [length_flatten_matrixOf, length_flatten_matrixOf, hlen]
  unfold TPof FPof FNof TNof countIdx
  rw [range_countP_get isTP _ _ hflat, range_countP_get isFP _ _ hflat,
    range_countP_get isFN _ _ hflat, range_countP_get isTN _ _ hflat]
  have hcells := countP_four_partition
    (fun c : Nat × Nat => isTP (some c.1) (some c.2))
    (fun c => isFP (some c.1) (some c.2))
    (fun c => isFN (some c.1) (some c.2))
    (fun c => isTN (some c.1) (some c.2))
    ((matrixOf yTrue vocab).flatten.zip (matrixOf yPred vocab).flatten)
    (by
      rintro ⟨t, p⟩ hmem
      have hmemT := (List.of_mem_zip hmem).1
      have hmemP := (List.of_mem_zip hmem).2
      rcases mem_flatten_matrixOf_bit yTrue vocab t hmemT with h0 | h1 <;>
        rcases mem_flatten_matrixOf_bit yPred vocab p hmemP with g0 | g1 <;>
          subst_vars <;> simp [isTP, isFP, isFN, isTN])
  rw [hcells, List.length_zip, ← hflat, Nat.min_self,
    length_flatten_matrixOf]

/-- Witness for C10 on the concrete scenario input. -/
theorem computeMetrics_counts_partition_witness :
    (computeMetrics [["apple"], ["banana"]] [["apple"], ["apple"]]
        ["apple", "banana"]).TP
      + (computeMetrics [["apple"], ["banana"]] [["apple"], ["apple"]]
        ["apple", "banana"]).FP
      + (computeMetrics [["apple"], ["banana"]] [["apple"], ["apple"]]
        ["apple", "banana"]).FN
      + (computeMetrics [["apple"], ["banana"]] [["apple"], ["apple"]]
        ["apple", "banana"]).TN
      = [["apple"], ["banana"]].length * ["apple", "banana"].length :=
  computeMetrics_counts_partition [["apple"], ["banana"]]
    [["apple"], ["apple"]] ["apple", "banana"] rfl

/- ### Helper lemmas: the per-food table -/

/-- The `i`-th row pushed by `perFoodTable`, for `i` in vocabulary range. -/
theorem perFoodTable_get (tM pM : List (List Nat)) (vocab : List String)
    (i : Nat) (h : i < vocab.length) :
    (perFoodTable tM pM vocab).get? i = some
      { food := vocab.getD i ""
        precision := (colCount isTP tM pM i : ℚ)
          / orOne ((colCount isTP tM pM i : ℚ) + (colCount isFP tM pM i : ℚ))
        «recall» := (colCount isTP tM pM i : ℚ)
          / orOne ((colCount isTP tM pM i : ℚ) + (colCount isFN tM pM i : ℚ))
        f1 := 2 * ((colCount isTP tM pM i : ℚ)
            / orOne ((colCount isTP tM pM i : ℚ) + (colCount isFP tM pM i : ℚ)))
          * ((colCount isTP tM pM i : ℚ)
            / orOne ((colCount isTP tM pM i : ℚ) + (colCount isFN tM pM i : ℚ)))
          / orOne (((colCount isTP tM pM i : ℚ)
            / orOne ((colCount isTP tM pM i : ℚ) + (colCount isFP tM pM i : ℚ)))
            + ((colCount isTP tM pM i : ℚ)
            / orOne ((colCount isTP tM pM i : ℚ) + (colCount isFN tM pM i : ℚ))))
        TP := colCount isTP tM pM i
        FP := colCount isFP tM pM i
        FN := colCount isFN tM pM i } := by
  unfold perFoodTable
  rw [List.get?_map, List.get?_range h]
  rfl

/-- A matrix cell of `matrixOf` in terms of the underlying label sets. -/
theorem cell_matrixOf (y : List (List String)) (vocab : List String)
    (j i : Nat) (v : String) (hv : vocab.get? i = some v) :
    cell (matrixOf y vocab) j i
      = (y.get? j).map (fun s => if s.contains v then 1 else 0) := by
  unfold cell matrixOf
  rw [List.get?_map]
  cases hj : y.get? j with
  | none => rfl
  | some s =>
      simp only [Option.map_some']
      show (indicatorRow s vocab).get? i = _
      unfold indicatorRow
      rw [List.get?_map, hv]
      rfl

/-- The cell conditions on 0/1 bits, in terms of the generating Booleans. -/
theorem isTP_bits (a b : Bool) :
    isTP (some (if a then 1 else 0)) (some (if b then 1 else 0))
      = (b && a) := by
  cases a <;> cases b <;> rfl

theorem isFP_bits (a b : Bool) :
    isFP (some (if a then 1 else 0)) (some (if b then 1 else 0))
      = (b && !a) := by
  cases a <;> cases b <;> rfl

theorem isFN_bits (a b : Bool) :
    isFN (some (if a then 1 else 0)) (some (if b then 1 else 0))
      = (!b && a) := by
  cases a <;> cases b <;> rfl

/-- The per-food column loop, re-expressed over the label sets. -/
theorem colCount_matrixOf (cond : Option Nat → Option Nat → Bool)
    (yTrue yPred : List (List String)) (vocab : List String)
    (hlen : yTrue.length = yPred.length) (i : Nat) (v : String)
    (hv : vocab.get? i = some v) :
    colCount cond (matrixOf yTrue vocab) (matrixOf yPred vocab) i
      = (yTrue.zip yPred).countP (fun s =>
          cond (some (if s.1.contains v then 1 else 0))
            (some (if s.2.contains v then 1 else 0))) := by
  unfold colCount
  have h1 : (matrixOf yTrue vocab).length = (matrixOf yPred vocab).length := by
    simp [matrixOf, hlen]
  have h2 := range_countP_get
    (fun ot op : Option (List Nat) =>
      cond (ot.bind (fun r => r.get? i)) (op.bind (fun r => r.get? i)))
    (matrixOf yTrue vocab) (matrixOf yPred vocab) h1
  rw [show (fun j => cond (cell (matrixOf yTrue vocab) j i)
        (cell (matrixOf yPred vocab) j i))
      = (fun j =>
          cond (((matrixOf yTrue vocab).get? j).bind (fun r => r.get? i))
            (((matrixOf yPred vocab).get? j).bind (fun r => r.get? i)))
    from rfl]
  rw [h2]
  rw [show matrixOf yTrue vocab = yTrue.map (fun s => indicatorRow s vocab)
    from rfl]
  rw [show matrixOf yPred vocab = yPred.map (fun s => indicatorRow s vocab)
    from rfl]
  rw [List.zip_map, List.countP_map]
  have hfun : ∀ s : List String × List String,
      cond ((indicatorRow s.1 vocab).get? i) ((indicatorRow s.2 vocab).get? i)
        = cond (some (if s.1.contains v then 1 else 0))
            (some (if s.2.contains v then 1 else 0)) := by
    intro s
    unfold indicatorRow
    rw [List.get?_map, List.get?_map, hv]
    rfl
  refine List.countP_congr ?_
  intro s _
  simpa using hfun s

/-- C1: a vocabulary entry that appears in no ground-truth set and in no
predicted set gets per-class precision, recall and f1 all exactly `0`
(its column counts are all zero and the zero denominators are replaced
by `1`, so the ratios are `0/1`). -/
theorem perFoodTable_absent_label_zero (yTrue yPred : List (List String))
    (vocab : List String) (i : Nat) (v : String)
    (hv : vocab.get? i = some v)
    (ht : ∀ s ∈ yTrue, s.contains v = false)
    (hp : ∀ s ∈ yPred, s.contains v = false) :
    (perFoodTable (computeMetrics yTrue yPred vocab).trueMatrix
        (computeMetrics yTrue yPred vocab).predMatrix vocab).get? i
      = some { food := v, precision := 0, «recall» := 0, f1 := 0,
               TP := 0, FP := 0, FN := 0 } := by
  have hi : i < vocab.length := by
    by_contra hge
    rw [List.get?_eq_none.mpr (Nat.le_of_not_lt hge)] at hv
    exact Option.noConfusion hv
  have hzeroT : ∀ j, cell (matrixOf yTrue vocab) j i = none ∨
      cell (matrixOf yTrue vocab) j i = some 0 := by
    intro j
    rw [cell_matrixOf yTrue vocab j i v hv]
    cases hj : yTrue.get? j with
    | none => exact Or.inl rfl
    | some s =>
        refine Or.inr ?_
        have hm : s ∈ yTrue := List.get?_mem hj
        have hns : v ∉ s := by simpa using ht s hm
        simp [hns]
  have hzeroP : ∀ j, cell (matrixOf yPred vocab) j i = none ∨
      cell (matrixOf yPred vocab) j i = some 0 := by
    intro j
    rw [cell_matrixOf yPred vocab j i v hv]
    cases hj : yPred.get? j with
    | none => exact Or.inl rfl
    | some s =>
        refine Or.inr ?_
        have hm : s ∈ yPred := List.get?_mem hj
        have hns : v ∉ s := by simpa using hp s hm
        simp [hns]
  have hTP0 : colCount isTP (matrixOf yTrue vocab) (matrixOf yPred vocab) i
      = 0 := by
    unfold colCount
    rw [List.countP_eq_zero]
    intro j _
    rcases hzeroP j with h | h <;> simp [isTP, h]
  have hFP0 : colCount isFP (matrixOf yTrue vocab) (matrixOf yPred vocab) i
      = 0 := by
    unfold colCount
    rw [List.countP_eq_zero]
    intro j _
    rcases hzeroP j with h | h <;> simp [isFP, h]
  have hFN0 : colCount isFN (matrixOf yTrue vocab) (matrixOf yPred vocab) i
      = 0 := by
    unfold colCount
    rw [List.countP_eq_zero]
    intro j _
    rcases hzeroT j with h | h <;> simp [isFN, h]
  have hgetD : vocab.getD i "" = v := by
    rw [List.getD_eq_get?, hv]
    rfl
  rw [computeMetrics_trueMatrix, computeMetrics_predMatrix,
    perFoodTable_get _ _ _ _ hi, hTP0, hFP0, hFN0, hgetD]
  norm_num [orOne]

/-- Witness for C1: `"banana"` never occurs, so its per-class row is all
zeros. -/
theorem perFoodTable_absent_label_zero_witness :
    (perFoodTable (computeMetrics [["apple"]] [["apple"]]
        ["apple", "banana"]).trueMatrix
      (computeMetrics [["apple"]] [["apple"]]
        ["apple", "banana"]).predMatrix
      ["apple", "banana"]).get? 1
      = some { food := "banana", precision := 0, «recall» := 0, f1 := 0,
               TP := 0, FP := 0, FN := 0 } :=
  perFoodTable_absent_label_zero [["apple"]] [["apple"]] ["apple", "banana"]
    1 "banana" rfl (by decide) (by decide)

/-- C9: the per-class pass yields one record per vocabulary entry, in
vocabulary order (the table has the vocabulary's length and the `i`-th
record carries the `i`-th vocabulary entry), and each record's counts are
the confusion counts of that single vocabulary column across all samples,
with precision, recall and f1 computed from them under the same
zero-denominator substitution `orOne` as the aggregate metrics. -/
theorem perFoodTable_per_class (yTrue yPred : List (List String))
    (vocab : List String) (hlen : yTrue.length = yPred.length)
    (i : Nat) (v : String) (hv : vocab.get? i = some v) :
    (perFoodTable (computeMetrics yTrue yPred vocab).trueMatrix
        (computeMetrics yTrue yPred vocab).predMatrix vocab).length
      = vocab.length ∧
    (perFoodTable (computeMetrics yTrue yPred vocab).trueMatrix
        (computeMetrics yTrue yPred vocab).predMatrix vocab).get? i
      = some
        { food := v
          precision :=
            ((yTrue.zip yPred).countP
                (fun s => s.2.contains v && s.1.contains v) : ℚ)
              / orOne (((yTrue.zip yPred).countP
                  (fun s => s.2.contains v && s.1.contains v) : ℚ)
                + ((yTrue.zip yPred).countP
                  (fun s => s.2.contains v && !s.1.contains v) : ℚ))
          «recall» :=
            ((yTrue.zip yPred).countP
                (fun s => s.2.contains v && s.1.contains v) : ℚ)
              / orOne (((yTrue.zip yPred).countP
                  (fun s => s.2.contains v && s.1.contains v) : ℚ)
                + ((yTrue.zip yPred).countP
                  (fun s => !s.2.contains v && s.1.contains v) : ℚ))
          f1 :=
            2 * (((yTrue.zip yPred).countP
                (fun s => s.2.contains v && s.1.contains v) : ℚ)
              / orOne (((yTrue.zip yPred).countP
                  (fun s => s.2.contains v && s.1.contains v) : ℚ)
                + ((yTrue.zip yPred).countP
                  (fun s => s.2.contains v && !s.1.contains v) : ℚ)))
              * (((yTrue.zip yPred).countP
                (fun s => s.2.contains v && s.1.contains v) : ℚ)
              / orOne (((yTrue.zip yPred).countP
                  (fun s => s.2.contains v && s.1.contains v) : ℚ)
                + ((yTrue.zip yPred).countP
                  (fun s => !s.2.contains v && s.1.contains v) : ℚ)))
              / orOne ((((yTrue.zip yPred).countP
                (fun s => s.2.contains v && s.1.contains v) : ℚ)
              / orOne (((yTrue.zip yPred).countP
                  (fun s => s.2.contains v && s.1.contains v) : ℚ)
                + ((yTrue.zip yPred).countP
                  (fun s => s.2.contains v && !s.1.contains v) : ℚ)))
                + (((yTrue.zip yPred).countP
                (fun s => s.2.contains v && s.1.contains v) : ℚ)
              / orOne (((yTrue.zip yPred).countP
                  (fun s => s.2.contains v && s.1.contains v) : ℚ)
                + ((yTrue.zip yPred).countP
                  (fun s => !s.2.contains v && s.1.contains v) : ℚ))))
          TP := (yTrue.zip yPred).countP
            (fun s => s.2.contains v && s.1.contains v)
          FP := (yTrue.zip yPred).countP
            (fun s => s.2.contains v && !s.1.contains v)
          FN := (yTrue.zip yPred).countP
            (fun s => !s.2.contains v && s.1.contains v) } := by
  have hi : i < vocab.length := by
    by_contra hge
    rw [List.get?_eq_none.mpr (Nat.le_of_not_lt hge)] at hv
    exact Option.noConfusion hv
  constructor
  · simp [perFoodTable]
  have hTP : colCount isTP (matrixOf yTrue vocab) (matrixOf yPred vocab) i
      = (yTrue.zip yPred).countP (fun s => s.2.contains v && s.1.contains v) := by
    rw [colCount_matrixOf isTP yTrue yPred vocab hlen i v hv]
    refine List.countP_congr ?_
    intro s _
    rw [isTP_bits]
  have hFP : colCount isFP (matrixOf yTrue vocab) (matrixOf yPred vocab) i
      = (yTrue.zip yPred).countP
          (fun s => s.2.contains v && !s.1.contains v) := by
    rw [colCount_matrixOf isFP yTrue yPred vocab hlen i v hv]
    refine List.countP_congr ?_
    intro s _
    rw [isFP_bits]
  have hFN : colCount isFN (matrixOf yTrue vocab) (matrixOf yPred vocab) i
      = (yTrue.zip yPred).countP
          (fun s => !s.2.contains v && s.1.contains v) := by
    rw [colCount_matrixOf isFN yTrue yPred vocab hlen i v hv]
    refine List.countP_congr ?_
    intro s _
    rw [isFN_bits]
  have hgetD : vocab.getD i "" = v := by
    rw [List.getD_eq_get?, hv]
    rfl
  rw [computeMetrics_trueMatrix, computeMetrics_predMatrix,
    perFoodTable_get _ _ _ _ hi, hTP, hFP, hFN, hgetD]

/-- Witness for C9 on a two-sample input. -/
theorem perFoodTable_per_class_witness :
    (perFoodTable (computeMetrics [["apple"], ["banana"]]
        [["apple"], ["apple"]] ["apple", "banana"]).trueMatrix
      (computeMetrics [["apple"], ["banana"]]
        [["apple"], ["apple"]] ["apple", "banana"]).predMatrix
      ["apple", "banana"]).length = 2 ∧
    ((perFoodTable (computeMetrics [["apple"], ["banana"]]
        [["apple"], ["apple"]] ["apple", "banana"]).trueMatrix
      (computeMetrics [["apple"], ["banana"]]
        [["apple"], ["apple"]] ["apple", "banana"]).predMatrix
      ["apple", "banana"]).get? 0).map (fun e => e.food)
      = some "apple" := by
  have h := perFoodTable_per_class [["apple"], ["banana"]]
    [["apple"], ["apple"]] ["apple", "banana"] rfl 0 "apple" rfl
  exact ⟨h.1, by rw [h.2]; rfl⟩

/- ### Helper lemmas: the annotation loader -/

/-- The split loop always produces one token more than the number of
commas — in particular it never drops a token, empty or not. -/
theorem splitCommaAux_length :
    ∀ (l : List Char) (cur : List Char),
      (splitCommaAux cur l).length = l.count ',' + 1 := by
  intro l
  induction l with
  | nil => intro cur; simp [splitCommaAux]
  | cons c rest ih =>
      intro cur
      by_cases hc : c = ','
      · subst hc
        simp [splitCommaAux, ih, List.count_cons]
      · simp [splitCommaAux, hc, ih, List.count_cons]

/-- Token count of `splitComma`: number of commas plus one. -/
theorem splitComma_length (l : List Char) :
    (splitComma l).length = l.count ',' + 1 :=
  splitCommaAux_length l []

/-- C8 counterexample: on the ground-truth cell `"apple,,banana"` the
loader keeps the empty token between the two commas — empty tokens are
not dropped, contradicting the claim. -/
theorem loadAnnotations_keeps_empty_tokens :
    loadAnnotations [{ audio_id := "audio_01", ground_truth := "apple,,banana" }]
      = [{ audio_id := "audio_01", ground_truth := ["apple", "", "banana"] }] ∧
    ¬ (∀ r ∈ loadAnnotations
        [{ audio_id := "audio_01", ground_truth := "apple,,banana" }],
        ∀ t ∈ r.ground_truth, t ≠ "") := by
  constructor
  · decide
  · intro hall
    exact hall
      { audio_id := "audio_01", ground_truth := ["apple", "", "banana"] }
      (by decide) "" (by decide) rfl

/-- C8 amended: for every input row the loader splits the ground-truth
cell on `,`, trims then case-folds every token, keeps empty tokens
(the token count is always the comma count plus one), and returns the
records in file row order. -/
theorem loadAnnotations_amended (rows : List CsvRow) (i : Nat)
    (h : i < rows.length) :
    (loadAnnotations rows).length = rows.length ∧
    (loadAnnotations rows).get? i = some
      { audio_id := (rows.getD i { audio_id := "", ground_truth := "" }).audio_id,
        ground_truth :=
          (jsSplitComma
            (rows.getD i { audio_id := "", ground_truth := "" }).ground_truth).map
            (fun t => jsToLower (jsTrim t)) } ∧
    ((jsSplitComma
        (rows.getD i { audio_id := "", ground_truth := "" }).ground_truth).map
        (fun t => jsToLower (jsTrim t))).length
      = (rows.getD i
          { audio_id := "", ground_truth := "" }).ground_truth.data.count ','
        + 1 := by
  have hx : rows.get? i
      = some (rows.getD i { audio_id := "", ground_truth := "" }) := by
    rw [List.getD_eq_get?]
    cases hq : rows.get? i with
    | none =>
        rw [List.get?_eq_none] at hq
        omega
    | some r => rfl
  refine ⟨by simp [loadAnnotations], ?_, ?_⟩
  · unfold loadAnnotations
    rw [List.get?_map, hx]
    rfl
  · rw [List.length_map, jsSplitComma, List.length_map, splitComma_length]

/-- Witness for C8 amended, on one row with spaces, capitals and a
doubled comma. -/
theorem loadAnnotations_amended_witness :
    0 < [CsvRow.mk "audio_01" " Apple ,,banana"].length ∧
    ((loadAnnotations [CsvRow.mk "audio_01" " Apple ,,banana"]).length = 1 ∧
      (loadAnnotations [CsvRow.mk "audio_01" " Apple ,,banana"]).get? 0 = some
        { audio_id := ([CsvRow.mk "audio_01" " Apple ,,banana"].getD 0
            (CsvRow.mk "" "")).audio_id,
          ground_truth :=
            (jsSplitComma ([CsvRow.mk "audio_01" " Apple ,,banana"].getD 0
                (CsvRow.mk "" "")).ground_truth).map
              (fun t => jsToLower (jsTrim t)) } ∧
      ((jsSplitComma ([CsvRow.mk "audio_01" " Apple ,,banana"].getD 0
          (CsvRow.mk "" "")).ground_truth).map
          (fun t => jsToLower (jsTrim t))).length
        = ([CsvRow.mk "audio_01" " Apple ,,banana"].getD 0
            (CsvRow.mk "" "")).ground_truth.data.count ',' + 1) :=
  ⟨by decide,
    loadAnnotations_amended [CsvRow.mk "audio_01" " Apple ,,banana"] 0
      (by decide)⟩

/- ### Helper lemmas: CSV serialization round trip -/

/-- Escaping a quote-free character list changes nothing. -/
theorem escapeQuotes_no_quote :
    ∀ a : List Char, '"' ∉ a → escapeQuotes a = a := by
  intro a
  induction a with
  | nil => intro _; rfl
  | cons c rest ih =>
      intro h
      have hc : c ≠ '"' := fun hc => h (hc ▸ List.mem_cons_self c rest)
      have hrest : '"' ∉ rest := fun hr => h (List.mem_cons_of_mem c hr)
      simp [escapeQuotes, hc, ih hrest]

/-- Scanning a comma-free, quote-free run in unquoted state accumulates
it into the current field. -/
theorem csvAux_consume_plain :
    ∀ (a cur l : List Char), ',' ∉ a → '"' ∉ a →
      csvAux false cur (a ++ l) = csvAux false (a.reverse ++ cur) l := by
  intro a
  induction a with
  | nil => intro cur l _ _; simp
  | cons c rest ih =>
      intro cur l h1 h2
      have hc1 : c ≠ ',' := fun hc => h1 (hc ▸ List.mem_cons_self c rest)
      have hc2 : c ≠ '"' := fun hc => h2 (hc ▸ List.mem_cons_self c rest)
      have hr1 : ',' ∉ rest := fun hr => h1 (List.mem_cons_of_mem c hr)
      have hr2 : '"' ∉ rest := fun hr => h2 (List.mem_cons_of_mem c hr)
      rw [List.cons_append]
      show csvAux false cur (c :: (rest ++ l)) = _
      rw [show csvAux false cur (c :: (rest ++ l))
          = csvAux false (c :: cur) (rest ++ l) by simp [csvAux, hc1, hc2]]
      rw [ih (c :: cur) l hr1 hr2]
      simp

/-- A comma in unquoted state closes the current field. -/
theorem csvAux_comma (cur l : List Char) :
    csvAux false cur (',' :: l) = cur.reverse :: csvAux false [] l := by
  simp [csvAux]

/-- A quote in unquoted state switches to quoted state. -/
theorem csvAux_open_quote (cur l : List Char) :
    csvAux false cur ('"' :: l) = csvAux true cur l := by
  simp [csvAux]

/-- Scanning an escaped field body in quoted state accumulates the
unescaped content and the closing quote returns to unquoted state. -/
theorem csvAux_quoted_content :
    ∀ (content cur l : List Char), l.head? ≠ some '"' →
      csvAux true cur (escapeQuotes content ++ '"' :: l)
        = csvAux false (content.reverse ++ cur) l := by
  intro content
  induction content with
  | nil =>
      intro cur l hl
      show csvAux true cur ('"' :: l) = csvAux false cur l
      cases l with
      | nil => simp [csvAux]
      | cons d l' =>
          have hd : d ≠ '"' := by
            intro hdq
            exact hl (by rw [hdq]; rfl)
          simp [csvAux, hd]
  | cons c cs ih =>
      intro cur l hl
      by_cases hc : c = '"'
      · subst hc
        show csvAux true cur ('"' :: '"' :: (escapeQuotes cs ++ '"' :: l)) = _
        rw [show csvAux true cur ('"' :: '"' :: (escapeQuotes cs ++ '"' :: l))
            = csvAux true ('"' :: cur) (escapeQuotes cs ++ '"' :: l)
          by simp [csvAux]]
        rw [ih ('"' :: cur) l hl]
        simp
      · show csvAux true cur
            ((if c = '"' then '"' :: '"' :: escapeQuotes cs
              else c :: escapeQuotes cs) ++ '"' :: l) = _
        rw [if_neg hc, List.cons_append]
        rw [show csvAux true cur (c :: (escapeQuotes cs ++ '"' :: l))
            = csvAux true (c :: cur) (escapeQuotes cs ++ '"' :: l)
          by rw [csvAux.eq_def]; simp [hc]]
        rw [ih (c :: cur) l hl]
        simp

/-- Scanning a comma-free run while splitting accumulates it into the
current token. -/
theorem splitCommaAux_consume :
    ∀ (a cur l : List Char), ',' ∉ a →
      splitCommaAux cur (a ++ l) = splitCommaAux (a.reverse ++ cur) l := by
  intro a
  induction a with
  | nil => intro cur l _; simp
  | cons c rest ih =>
      intro cur l h
      have hc : c ≠ ',' := fun hc => h (hc ▸ List.mem_cons_self c rest)
      have hr : ',' ∉ rest := fun hr => h (List.mem_cons_of_mem c hr)
      rw [List.cons_append]
      rw [show splitCommaAux cur (c :: (rest ++ l))
          = splitCommaAux (c :: cur) (rest ++ l) by simp [splitCommaAux, hc]]
      rw [ih (c :: cur) l hr]
      simp

/-- A comma-free input yields exactly one token. -/
theorem splitCommaAux_no_comma (l cur : List Char) (h : ',' ∉ l) :
    splitCommaAux cur l = [cur.reverse ++ l] := by
  rw [show l = l ++ [] by simp, splitCommaAux_consume l cur [] h]
  simp [splitCommaAux]

/-- The character data of a comma-join, one cons step. -/
theorem joinComma_data_cons (x y : String) (ys : List String) :
    (joinComma (x :: y :: ys)).data
      = x.data ++ ',' :: (joinComma (y :: ys)).data := by
  show (x ++ "," ++ joinComma (y :: ys)).data = _
  rw [String.data_append, String.data_append]
  simp

/-- A comma-join of quote-free strings is quote-free. -/
theorem joinComma_no_quote :
    ∀ ls : List String, (∀ x ∈ ls, '"' ∉ x.data)
      → '"' ∉ (joinComma ls).data := by
  intro ls
  induction ls with
  | nil => intro _; simp [joinComma]
  | cons x xs ih =>
      intro h
      cases xs with
      | nil => simpa [joinComma] using h x (by simp)
      | cons y ys =>
          rw [joinComma_data_cons]
          intro hmem
          rcases List.mem_append.mp hmem with hx | hx
          · exact h x (by simp) hx
          · rcases List.mem_cons.mp hx with hq | hx'
            · simp at hq
            · exact ih (fun z hz => h z (List.mem_cons_of_mem x hz)) hx'

/-- Splitting a comma-join of comma-free strings recovers them. -/
theorem splitComma_joinComma :
    ∀ ls : List String, ls ≠ [] → (∀ x ∈ ls, ',' ∉ x.data) →
      splitComma (joinComma ls).data = ls.map String.data := by
  intro ls
  induction ls with
  | nil => intro h _; exact absurd rfl h
  | cons x xs ih =>
      intro _ h
      cases xs with
      | nil =>
          show splitCommaAux [] x.data = [x.data]
          rw [splitCommaAux_no_comma x.data [] (h x (by simp))]
          simp
      | cons y ys =>
          rw [joinComma_data_cons]
          show splitCommaAux [] (x.data ++ ',' :: (joinComma (y :: ys)).data)
            = _
          rw [splitCommaAux_consume x.data [] _ (h x (by simp))]
          rw [show splitCommaAux (x.data.reverse ++ [])
                (',' :: (joinComma (y :: ys)).data)
              = (x.data.reverse ++ []).reverse
                :: splitCommaAux [] (joinComma (y :: ys)).data
            by simp [splitCommaAux]]
          rw [show splitCommaAux [] (joinComma (y :: ys)).data
              = splitComma (joinComma (y :: ys)).data from rfl]
          rw [ih (by simp) (fun z hz => h z (List.mem_cons_of_mem x hz))]
          simp

/-- Re-making strings from their character data is the identity. -/
theorem map_mk_map_data (ls : List String) :
    ((ls.map String.data).map String.mk) = ls := by
  induction ls with
  | nil => rfl
  | cons x xs ih => simp [ih]

/-- Reading one quoted, quote-free field returns to unquoted state with
the field accumulated. -/
theorem csvAux_quoted_field (content cur l : List Char)
    (hq : '"' ∉ content) (hl : l.head? ≠ some '"') :
    csvAux true cur (content ++ '"' :: l)
      = csvAux false (content.reverse ++ cur) l := by
  conv_lhs => rw [← escapeQuotes_no_quote content hq]
  exact csvAux_quoted_content content cur l hl

/-- C7: serializing a prediction row (quote characters of the transcript
doubled, the three non-id fields wrapped in quotes) and re-parsing the
row recovers the same sample id, the same ground-truth labels, the same
predicted labels and the same transcript — for every transcript,
including one containing quote and comma characters, provided the id and
the labels themselves carry no comma or quote. -/
theorem serializeRow_roundtrip (id tr : String) (gts preds : List String)
    (hid1 : ',' ∉ id.data) (hid2 : '"' ∉ id.data)
    (hgts0 : gts ≠ []) (hgts : ∀ x ∈ gts, ',' ∉ x.data ∧ '"' ∉ x.data)
    (hpreds0 : preds ≠ [])
    (hpreds : ∀ x ∈ preds, ',' ∉ x.data ∧ '"' ∉ x.data) :
    reparseRow (serializeRow
        { audio_id := id, ground_truth := joinComma gts,
          predicted := joinComma preds, transcript := tr })
      = some (id, gts, preds, tr) := by
  have hgtq : '"' ∉ (joinComma gts).data :=
    joinComma_no_quote gts (fun x hx => (hgts x hx).2)
  have hpq : '"' ∉ (joinComma preds).data :=
    joinComma_no_quote preds (fun x hx => (hpreds x hx).2)
  have hdata : (serializeRow
      { audio_id := id, ground_truth := joinComma gts,
        predicted := joinComma preds, transcript := tr }).data
      = id.data ++ ',' :: '"' :: ((joinComma gts).data
        ++ '"' :: ',' :: '"' :: ((joinComma preds).data
        ++ '"' :: ',' :: '"' :: (escapeQuotes tr.data ++ ['"']))) := by
    simp [serializeRow, String.data_append]
  have hfields : parseFields (serializeRow
      { audio_id := id, ground_truth := joinComma gts,
        predicted := joinComma preds, transcript := tr }).data
      = [id.data, (joinComma gts).data, (joinComma preds).data, tr.data] := by
    rw [hdata]
    unfold parseFields
    rw [csvAux_consume_plain id.data [] _ hid1 hid2, csvAux_comma,
      csvAux_open_quote]
    simp only [List.append_nil, List.reverse_reverse]
    rw [csvAux_quoted_field _ _ _ hgtq (by simp), csvAux_comma,
      csvAux_open_quote]
    simp only [List.append_nil, List.reverse_reverse]
    rw [csvAux_quoted_field _ _ _ hpq (by simp), csvAux_comma,
      csvAux_open_quote]
    simp only [List.append_nil, List.reverse_reverse]
    rw [show (['"'] : List Char) = '"' :: [] from rfl,
      csvAux_quoted_content tr.data [] [] (by simp)]
    simp [csvAux]
  unfold reparseRow
  rw [hfields]
  show some (String.mk id.data, (splitComma (joinComma gts).data).map String.mk,
      (splitComma (joinComma preds).data).map String.mk, String.mk tr.data)
    = some (id, gts, preds, tr)
  rw [splitComma_joinComma gts hgts0 (fun x hx => (hgts x hx).1),
    splitComma_joinComma preds hpreds0 (fun x hx => (hpreds x hx).1),
    map_mk_map_data, map_mk_map_data]

/-- Witness for C7: a transcript with one embedded quote character and
one embedded comma round-trips. -/
theorem serializeRow_roundtrip_witness :
    reparseRow (serializeRow
        { audio_id := "audio_01",
          ground_truth := joinComma ["apple", "banana"],
          predicted := joinComma ["pasta"],
          transcript := "I ate \"pasta\", with cheese" })
      = some ("audio_01", ["apple", "banana"], ["pasta"],
          "I ate \"pasta\", with cheese") :=
  serializeRow_roundtrip "audio_01" "I ate \"pasta\", with cheese"
    ["apple", "banana"] ["pasta"] (by decide) (by decide) (by decide)
    (by decide) (by decide) (by decide)

end FoodApp
